import Mathlib

/-!
Shallow embedding of the session/tool execution core of the
AIDrivenMeetingSummaryProjectRiskDetectionNotifySystem repository:
`meeting_mcp/core/mcp.py` (MCPHost), `meeting_mcp/agents/orchestrator_agent.py`
(OrchestratorAgent) and `meeting_mcp/protocols/a2a.py` (A2AMessage part
normalization).

Python dictionaries are modelled as insertion-ordered association lists; a
`dict[k] = v` assignment is `setEntry` (overwrite in place if the key exists,
append otherwise), which matches CPython's ordered-dict semantics.  Python
values that flow through the modelled code are the inductive `PyV`.  A tool's
`execute` coroutine is a function into `Except String PyV`: `.error e` models
`execute` raising an exception whose `str` is `e`.  `uuid.uuid4()` results are
passed in as explicit parameters (with freshness hypotheses where a claim
depends on uniqueness), and `datetime.now().isoformat()` as a `now : String`
parameter.
-/

/-- The `PartType` enum of `protocols/a2a.py`. -/
inductive PartType where
  | TEXT
  | JSON
  | MEETING_ID
  | SUMMARY
  | TASK
  | ACTION_ITEM
  | PROGRESS
  | RESULT
  | RISK
deriving DecidableEq

/-- The string value of each `PartType` member, as in the Python source. -/
def PartType.value : PartType → String
  | .TEXT => "text/plain"
  | .JSON => "application/json"
  | .MEETING_ID => "meeting_id"
  | .SUMMARY => "summary"
  | .TASK => "task"
  | .ACTION_ITEM => "action_item"
  | .PROGRESS => "progress"
  | .RESULT => "result"
  | .RISK => "risk"

/-- Value-based enum lookup: `PartType(s)` succeeds exactly when `s` is one of
the members' values; `none` models the `ValueError` the Python constructor
raises otherwise. -/
def PartType.fromValue (s : String) : Option PartType :=
  if s = "text/plain" then some .TEXT
  else if s = "application/json" then some .JSON
  else if s = "meeting_id" then some .MEETING_ID
  else if s = "summary" then some .SUMMARY
  else if s = "task" then some .TASK
  else if s = "action_item" then some .ACTION_ITEM
  else if s = "progress" then some .PROGRESS
  else if s = "result" then some .RESULT
  else if s = "risk" then some .RISK
  else none

/-- Embedding of the Python values that flow through the modelled code.
`vPart pid ctype content` is a `MessagePart` instance (its `part_id` is kept
as a `PyV` because the source never coerces it to `str`). -/
inductive PyV where
  | vNone : PyV
  | vBool : Bool → PyV
  | vInt : Int → PyV
  | vStr : String → PyV
  | vList : List PyV → PyV
  | vDict : List (String × PyV) → PyV
  | vPType : PartType → PyV
  | vPart : PyV → PartType → PyV → PyV

/-- Python truthiness (`bool(v)`) for the embedded values. -/
def pyTruthy : PyV → Bool
  | .vNone => false
  | .vBool b => b
  | .vInt n => n != 0
  | .vStr s => !s.isEmpty
  | .vList l => !l.isEmpty
  | .vDict d => !d.isEmpty
  | .vPType _ => true
  | .vPart _ _ _ => true

/-- Python `str(v)` for the embedded values.  Scalar cases follow CPython;
container and object cases use a fixed placeholder — no modelled code path
applies `str` to a container (the A2A normalizer only reaches `str(p)` for
bare scalars), so their exact rendering is irrelevant here. -/
def pyStr : PyV → String
  | .vNone => "None"
  | .vBool true => "True"
  | .vBool false => "False"
  | .vInt n => toString n
  | .vStr s => s
  | .vList _ => "<list>"
  | .vDict _ => "<dict>"
  | .vPType t => "PartType." ++ t.value
  | .vPart _ _ _ => "<MessagePart>"

/-- Ordered-dict key lookup (`k in d` / `d[k]` read path). -/
def alookup {β : Type} (k : String) : List (String × β) → Option β
  | [] => none
  | (k1, v) :: rest => if k1 = k then some v else alookup k rest

/-- Ordered-dict assignment `d[k] = v`: overwrite in place if the key is
present, else append — CPython insertion-order semantics. -/
def setEntry {β : Type} (k : String) (v : β) : List (String × β) → List (String × β)
  | [] => [(k, v)]
  | (k1, v1) :: rest => if k1 = k then (k, v) :: rest else (k1, v1) :: setEntry k v rest

/-- `d.get(k)` — `None` when absent. -/
def dictGet (d : List (String × PyV)) (k : String) : PyV :=
  (alookup k d).getD .vNone

/-- The `MCPToolType` enum of `core/mcp.py`. -/
inductive MCPToolType where
  | CALENDAR
  | DATAPREPROCESSING
  | SUMMARIZATION
  | NOTIFICATION
  | RISK_DETECTION
  | JIRA
  | OTHER
deriving DecidableEq

/-- String value of each `MCPToolType` member. -/
def MCPToolType.value : MCPToolType → String
  | .CALENDAR => "calendar"
  | .DATAPREPROCESSING => "data_preprocessing"
  | .SUMMARIZATION => "summarization"
  | .NOTIFICATION => "notification"
  | .RISK_DETECTION => "risk_detection"
  | .JIRA => "jira"
  | .OTHER => "other"

/-- The `MCPTool` dataclass.  `execute` is the (possibly overridden) coroutine:
`.ok r` models a normal return of `r`, `.error e` models raising an exception
with text `e`. -/
structure MCPTool where
  tool_id : String
  tool_type : MCPToolType
  name : String
  description : String
  api_endpoint : String := ""
  auth_required : Bool := false
  parameters : List (String × PyV) := []
  execute : List (String × PyV) → Except String PyV

/-- One row of `MCPHost.sessions` (the dict literal built by
`create_session`). -/
structure SessionData where
  agent_id : String
  created_at : String
  active : Bool
  context : List (String × PyV)

/-- The mutable state of an `MCPHost` instance: its two dicts. -/
structure MCPHost where
  tools : List (String × MCPTool)
  sessions : List (String × SessionData)

/-- `MCPHost.register_tool`: `self.tools[tool.tool_id] = tool`. -/
def register_tool (h : MCPHost) (t : MCPTool) : MCPHost :=
  { h with tools := setEntry t.tool_id t h.tools }

/-- `MCPHost.create_session`: stores a fresh row with `active = True` and empty
context under the fresh uuid `session_id` (passed explicitly) and returns it. -/
def create_session (h : MCPHost) (session_id agent_id now : String) : MCPHost :=
  let row : SessionData :=
    { agent_id := agent_id, created_at := now, active := true, context := [] }
  { h with sessions := setEntry session_id row h.sessions }

/-- The structured error result `{"status": "error", "message": msg}`. -/
def errRes (msg : String) : PyV :=
  .vDict [("status", .vStr "error"), ("message", .vStr msg)]

/-- `MCPHost.execute_tool`.  Validation order as in the source: unknown
session, then inactive session, then unknown tool, then invoke the tool with
`parameters or \x7b\x7d`; an exception from the tool's `execute` is caught and
converted to an error result.  The function is total: `execute_tool` itself
never raises. -/
def execute_tool (h : MCPHost) (session_id tool_id : String)
    (parameters : Option (List (String × PyV))) : PyV :=
  match alookup session_id h.sessions with
  | none => errRes "Invalid session ID"
  | some s =>
    if !s.active then errRes "Session not active"
    else
      match alookup tool_id h.tools with
      | none => errRes "Tool not found"
      | some tool =>
        match tool.execute (parameters.getD []) with
        | .ok r => r
        | .error e => errRes e

/-- `MCPHost.get_available_tools`: empty for unknown or inactive sessions,
else a summary of every registered tool. -/
def get_available_tools (h : MCPHost) (session_id : String) : List PyV :=
  match alookup session_id h.sessions with
  | none => []
  | some s =>
    if !s.active then []
    else
      h.tools.map (fun kv =>
        .vDict [("tool_id", .vStr kv.2.tool_id),
                ("name", .vStr kv.2.name),
                ("description", .vStr kv.2.description),
                ("tool_type", .vStr kv.2.tool_type.value),
                ("parameters", .vDict kv.2.parameters)])

/-- `MCPHost.end_session`: `False` and no state change for an unknown id, else
flip the row's `active` to `False` and return `True`. -/
def end_session (h : MCPHost) (session_id : String) : Bool × MCPHost :=
  match alookup session_id h.sessions with
  | none => (false, h)
  | some s =>
    let row : SessionData := { s with active := false }
    (true, { h with sessions := setEntry session_id row h.sessions })

/-- All modelled operations on an `MCPHost` instance, for stating lifecycle
invariants over arbitrary call sequences.  `create` carries the uuid the call
allocates and the timestamp; `execT` and `getTools` carry their arguments even
though they are pure reads. -/
inductive HostOp where
  | register (t : MCPTool)
  | create (session_id agent_id now : String)
  | endSess (session_id : String)
  | execT (session_id tool_id : String) (params : Option (List (String × PyV)))
  | getTools (session_id : String)

/-- State effect of each host operation.  `execute_tool` and
`get_available_tools` never assign to `self.tools` or `self.sessions` in
`core/mcp.py`, so their state effect is the identity. -/
def applyOp (h : MCPHost) : HostOp → MCPHost
  | .register t => register_tool h t
  | .create sid ag now => create_session h sid ag now
  | .endSess sid => (end_session h sid).2
  | .execT _ _ _ => h
  | .getTools _ => h

/-- Fold a call sequence over the host state. -/
def applyOps (h : MCPHost) (ops : List HostOp) : MCPHost :=
  ops.foldl applyOp h

/-- A `create` op's uuid is fresh for the current state (what `uuid.uuid4()`
guarantees in practice); every other op is unconstrained. -/
def opFresh (h : MCPHost) : HostOp → Prop
  | .create sid _ _ => alookup sid h.sessions = none
  | _ => True

/-- Every `create` in the sequence uses a uuid fresh at the moment it runs. -/
def FreshOps (h : MCPHost) : List HostOp → Prop
  | [] => True
  | op :: rest => opFresh h op ∧ FreshOps (applyOp h op) rest

/-- `pat.isPrefixOf l || pat` occurs somewhere further right: Python's
substring containment `pat in l` over character lists. -/
def isSubList (pat : List Char) : List Char → Bool
  | [] => pat.isEmpty
  | c :: rest => pat.isPrefixOf (c :: rest) || isSubList pat rest

/-- `s.lower()` as a character list (ASCII inputs in all modelled call
sites). -/
def lowerChars (s : String) : List Char :=
  s.data.map Char.toLower

/-- Python `k in t` for strings (substring containment). -/
def strIn (k : String) (t : List Char) : Bool :=
  isSubList k.data t

/-- `OrchestratorAgent.detect_intent`: the keyword groups and their order are
exactly those of the source; `text or ""` makes a `None` argument behave as
the empty string. -/
def detect_intent (text : Option String) : String :=
  let t := lowerChars (text.getD "")
  if ["preprocess", "pre-processing", "process", "transcript", "transcripts",
      "clean"].any (fun k => strIn k t) then "preprocess"
  else if strIn "summar" t || strIn "summary" t then "summarize"
  else if strIn "risk" t || strIn "detect risk" t || strIn "risks" t then "risk"
  else if ["calendar", "events", "fetch"].any (fun k => strIn k t) then "calendar"
  else if strIn "jira" t || strIn "ticket" t || strIn "issue" t then "jira"
  else if strIn "notify" t || strIn "email" t then "notify"
  else "default"

/-- `OrchestratorAgent.route_agents`: the static intent-to-tool-ids table,
with `mapping.get(intent, ["summarization"])` as the fallback. -/
def route_agents (intent : String) : List String :=
  (alookup intent
    [("calendar", ["calendar"]),
     ("preprocess", ["transcript"]),
     ("summarize", ["summarization"]),
     ("risk", ["risk"]),
     ("jira", ["jira"]),
     ("notify", ["notification"]),
     ("default", ["summarization"])]).getD ["summarization"]

/-- The aggregated `\x7bintent, results\x7d` dict `orchestrate` returns;
`results` keeps the insertion order of the tool-id loop. -/
structure OrchResult where
  intent : String
  results : List (String × PyV)

/-- Session setup step of `orchestrate`: with no caller session, create a
short-lived one (uuid `freshSid`) and mark it for cleanup; otherwise reuse the
caller's session untouched.  Returns (session id, created_session flag,
host state after setup). -/
def orchSessionSetup (h : MCPHost) (session_id : Option String)
    (freshSid now : String) : String × Bool × MCPHost :=
  match session_id with
  | none => (freshSid, true, create_session h freshSid "orchestrator" now)
  | some sid => (sid, false, h)

/-- `OrchestratorAgent.orchestrate`: detect intent, route to tool ids, run
`execute_tool` for each id in order passing `params or \x7b\x7d`, and in the
`finally` step end the session iff this call created it.  `execute_tool` is
total (it catches tool exceptions itself), so the per-tool `except` branch of
the source contributes no extra case here. -/
def orchestrate (h : MCPHost) (user_message : Option String)
    (params : Option (List (String × PyV))) (session_id : Option String)
    (freshSid now : String) : OrchResult × MCPHost :=
  let intent := detect_intent user_message
  let tool_ids := route_agents intent
  let setup := orchSessionSetup h session_id freshSid now
  let sid := setup.1
  let created := setup.2.1
  let h1 := setup.2.2
  let results := tool_ids.map (fun tid =>
    (tid, execute_tool h1 sid tid (some (params.getD []))))
  let h2 := if created then (end_session h1 sid).2 else h1
  ({ intent := intent, results := results }, h2)

/-- The coercion `__post_init__` applies to a dict part's content-type tag:
keep a `PartType` instance; convert a string via the enum's value lookup,
falling back to TEXT on `ValueError`; any other value (including `None`) also
falls back to TEXT. -/
def coercePartType (v : PyV) : PartType :=
  match v with
  | .vPType t => t
  | .vStr s => (PartType.fromValue s).getD .TEXT
  | _ => .TEXT

/-- The content-type tag a dict part descriptor carries:
`p.get("content_type") if "content_type" in p else p.get("type")`. -/
def dictCtypeVal (d : List (String × PyV)) : PyV :=
  if (alookup "content_type" d).isSome then dictGet d "content_type"
  else dictGet d "type"

/-- Normalization of one entry of `A2AMessage.parts` in `__post_init__`:
a `MessagePart` is kept; a dict descriptor becomes a part with the coerced
content type (`freshId` is the `uuid.uuid4()` string used when `part_id` is
absent or falsy); anything else becomes a TEXT part holding `str(p)`. -/
def normalizeOne (p : PyV) (freshId : String) : PyV :=
  match p with
  | .vPart pid ct c => .vPart pid ct c
  | .vDict d =>
    let pid := if pyTruthy (dictGet d "part_id") then dictGet d "part_id"
               else .vStr freshId
    .vPart pid (coercePartType (dictCtypeVal d)) (dictGet d "content")
  | other => .vPart (.vStr freshId) .TEXT (.vStr (pyStr other))

/-- The normalization loop, threading an index into the fresh-uuid supply
`gen` (each loop iteration draws at most one fresh uuid). -/
def normalizePartsAux (gen : Nat → String) : Nat → List PyV → List PyV
  | _, [] => []
  | i, p :: rest => normalizeOne p (gen i) :: normalizePartsAux gen (i + 1) rest

/-- `A2AMessage.__post_init__`'s whole-list normalization. -/
def normalizeParts (gen : Nat → String) (parts : List PyV) : List PyV :=
  normalizePartsAux gen 0 parts

/-- The `A2AMessage` dataclass after `__post_init__` has run. -/
structure A2AMessage where
  message_id : String
  role : String
  parts : List PyV

/-- Constructing an `A2AMessage`: the dataclass constructor followed by
`__post_init__`'s normalization of `parts`. -/
def mkA2AMessage (gen : Nat → String) (message_id role : String)
    (parts : List PyV) : A2AMessage :=
  { message_id := message_id, role := role, parts := normalizeParts gen parts }

/-- Whether a value is a (typed) `MessagePart` instance. -/
def isMessagePart : PyV → Bool
  | .vPart _ _ _ => true
  | _ => false

/-- The content kind of a normalized part (`none` on a non-part value). -/
def partKind : PyV → Option PartType
  | .vPart _ t _ => some t
  | _ => none

/-- The keyword groups of `detect_intent` in source order, paired with the
intent tag each returns.  Stated from the spec's wording (a priority-ordered
first-match classifier) to compare with the source's nested conditionals. -/
def intentGroups : List (List String × String) :=
  [(["preprocess", "pre-processing", "process", "transcript", "transcripts",
     "clean"], "preprocess"),
   (["summar", "summary"], "summarize"),
   (["risk", "detect risk", "risks"], "risk"),
   (["calendar", "events", "fetch"], "calendar"),
   (["jira", "ticket", "issue"], "jira"),
   (["notify", "email"], "notify")]

/-- The spec's reading of `detect_intent`: the first keyword group with a
match determines the tag; no match yields "default". -/
def firstMatchIntent (text : Option String) : String :=
  let t := lowerChars (text.getD "")
  match intentGroups.find? (fun g => g.1.any (fun k => strIn k t)) with
  | some g => g.2
  | none => "default"

/-- A concrete tool whose `execute` always raises (exception text "boom"),
like the misbehaving registered tool of the spec's orchestration test. -/
def boomTool : MCPTool :=
  { tool_id := "t1", tool_type := .OTHER, name := "Boom",
    description := "a tool whose execute always raises",
    execute := fun _ => Except.error "boom" }

/-- A concrete active session row. -/
def sampleSession : SessionData :=
  { agent_id := "orchestrator", created_at := "2026-10-12T00:00:00",
    active := true, context := [] }

/-- A concrete host with one raising tool and one active session. -/
def sampleHost : MCPHost :=
  { tools := [("t1", boomTool)], sessions := [("s1", sampleSession)] }

/-- A concrete host whose raising tool is registered under the id the
orchestrator routes the "notify" intent to. -/
def notifHost : MCPHost :=
  { tools := [("notification", boomTool)], sessions := [("s1", sampleSession)] }

theorem alookup_setEntry_self {β : Type} (k : String) (v : β) :
    ∀ l : List (String × β), alookup k (setEntry k v l) = some v := by
  intro l
  induction l with
  | nil => simp [setEntry, alookup]
  | cons kv rest ih =>
    obtain ⟨k1, v1⟩ := kv
    by_cases hk : k1 = k
    · simp [setEntry, hk, alookup]
    · simp [setEntry, hk, alookup, ih]

theorem alookup_setEntry_ne {β : Type} (k k2 : String) (v : β) (hk : k2 ≠ k) :
    ∀ l : List (String × β), alookup k (setEntry k2 v l) = alookup k l := by
  intro l
  induction l with
  | nil => simp [setEntry, alookup, hk]
  | cons kv rest ih =>
    obtain ⟨k1, v1⟩ := kv
    by_cases h1 : k1 = k2
    · subst h1
      simp [setEntry, alookup, hk]
    · simp [setEntry, h1, alookup, ih]

theorem setEntry_setEntry {β : Type} (k : String) (v v2 : β) :
    ∀ l : List (String × β), setEntry k v (setEntry k v2 l) = setEntry k v l := by
  intro l
  induction l with
  | nil => simp [setEntry]
  | cons kv rest ih =>
    obtain ⟨k1, v1⟩ := kv
    by_cases hk : k1 = k
    · simp [setEntry, hk]
    · simp [setEntry, hk, ih]

theorem exec_no_session (h : MCPHost) (sid tid : String)
    (p : Option (List (String × PyV))) (hs : alookup sid h.sessions = none) :
    execute_tool h sid tid p = errRes "Invalid session ID" := by
  simp [execute_tool, hs]

theorem exec_inactive (h : MCPHost) (sid tid : String)
    (p : Option (List (String × PyV))) (s : SessionData)
    (hs : alookup sid h.sessions = some s) (ha : s.active = false) :
    execute_tool h sid tid p = errRes "Session not active" := by
  simp [execute_tool, hs, ha]

theorem exec_no_tool (h : MCPHost) (sid tid : String)
    (p : Option (List (String × PyV))) (s : SessionData)
    (hs : alookup sid h.sessions = some s) (ha : s.active = true)
    (ht : alookup tid h.tools = none) :
    execute_tool h sid tid p = errRes "Tool not found" := by
  simp [execute_tool, hs, ha, ht]

theorem exec_tool_ok (h : MCPHost) (sid tid : String)
    (p : Option (List (String × PyV))) (s : SessionData) (t : MCPTool) (r : PyV)
    (hs : alookup sid h.sessions = some s) (ha : s.active = true)
    (ht : alookup tid h.tools = some t)
    (hr : t.execute (p.getD []) = Except.ok r) :
    execute_tool h sid tid p = r := by
  simp [execute_tool, hs, ha, ht, hr]

theorem exec_tool_raises (h : MCPHost) (sid tid : String)
    (p : Option (List (String × PyV))) (s : SessionData) (t : MCPTool) (e : String)
    (hs : alookup sid h.sessions = some s) (ha : s.active = true)
    (ht : alookup tid h.tools = some t)
    (hr : t.execute (p.getD []) = Except.error e) :
    execute_tool h sid tid p = errRes e := by
  simp [execute_tool, hs, ha, ht, hr]

theorem end_session_mem (h : MCPHost) (sid : String) (s : SessionData)
    (hs : alookup sid h.sessions = some s) :
    end_session h sid
      = (true, { h with sessions := setEntry sid ({ s with active := false }) h.sessions }) := by
  simp [end_session, hs]

theorem applyOp_mem (h : MCPHost) (op : HostOp) (sid : String)
    (hm : (alookup sid h.sessions).isSome = true) :
    (alookup sid (applyOp h op).sessions).isSome = true := by
  cases op with
  | register t => simpa [applyOp, register_tool] using hm
  | create sid2 ag now =>
    by_cases hk : sid2 = sid
    · subst hk
      simp [applyOp, create_session, alookup_setEntry_self]
    · simpa [applyOp, create_session, alookup_setEntry_ne sid sid2 _ hk] using hm
  | endSess sid2 =>
    cases he : alookup sid2 h.sessions with
    | none => simpa [applyOp, end_session, he] using hm
    | some s2 =>
      by_cases hk : sid2 = sid
      · subst hk
        simp [applyOp, end_session, he, alookup_setEntry_self]
      · simpa [applyOp, end_session, he, alookup_setEntry_ne sid sid2 _ hk] using hm
  | execT sid2 tid p => simpa [applyOp] using hm
  | getTools sid2 => simpa [applyOp] using hm

theorem applyOp_inactive_stays (h : MCPHost) (op : HostOp) (sid : String)
    (s : SessionData) (hf : opFresh h op)
    (hs : alookup sid h.sessions = some s) (ha : s.active = false) :
    ∃ s2, alookup sid (applyOp h op).sessions = some s2 ∧ s2.active = false := by
  cases op with
  | register t => exact ⟨s, by simpa [applyOp, register_tool] using hs, ha⟩
  | create sid2 ag now =>
    have hk : sid2 ≠ sid := by
      intro hcontra
      subst hcontra
      simp only [opFresh] at hf
      rw [hs] at hf
      exact Option.noConfusion hf
    exact ⟨s, by simpa [applyOp, create_session, alookup_setEntry_ne sid sid2 _ hk] using hs, ha⟩
  | endSess sid2 =>
    cases he : alookup sid2 h.sessions with
    | none => exact ⟨s, by simpa [applyOp, end_session, he] using hs, ha⟩
    | some s2 =>
      by_cases hk : sid2 = sid
      · subst hk
        refine ⟨{ s2 with active := false }, ?_, rfl⟩
        simp [applyOp, end_session, he, alookup_setEntry_self]
      · exact ⟨s, by simpa [applyOp, end_session, he,
          alookup_setEntry_ne sid sid2 _ hk] using hs, ha⟩
  | execT sid2 tid p => exact ⟨s, by simpa [applyOp] using hs, ha⟩
  | getTools sid2 => exact ⟨s, by simpa [applyOp] using hs, ha⟩

theorem applyOps_inactive_stays (ops : List HostOp) :
    ∀ (h : MCPHost) (sid : String) (s : SessionData), FreshOps h ops →
      alookup sid h.sessions = some s → s.active = false →
      ∃ s2, alookup sid (applyOps h ops).sessions = some s2 ∧ s2.active = false := by
  induction ops with
  | nil => exact fun h sid s _ hs ha => ⟨s, hs, ha⟩
  | cons op rest ih =>
    intro h sid s hfr hs ha
    obtain ⟨hf, hfr2⟩ := hfr
    obtain ⟨s2, hs2, ha2⟩ := applyOp_inactive_stays h op sid s hf hs ha
    simpa [applyOps, List.foldl_cons] using ih (applyOp h op) sid s2 hfr2 hs2 ha2

theorem normalizeOne_isPart (p : PyV) (freshId : String) :
    isMessagePart (normalizeOne p freshId) = true := by
  cases p <;> simp [normalizeOne, isMessagePart]

theorem normalizePartsAux_of_parts (gen : Nat → String) :
    ∀ (l : List PyV) (i : Nat), (∀ p ∈ l, isMessagePart p = true) →
      normalizePartsAux gen i l = l := by
  intro l
  induction l with
  | nil => intro i _; rfl
  | cons p rest ih =>
    intro i hall
    have hp := hall p (List.mem_cons_self p rest)
    have hrest := ih (i + 1) (fun q hq => hall q (List.mem_cons_of_mem _ hq))
    cases p
    case vPart pid ct c => simp [normalizePartsAux, normalizeOne, hrest]
    all_goals simp [isMessagePart] at hp

theorem normalizePartsAux_all_parts (gen : Nat → String) :
    ∀ (l : List PyV) (i : Nat) (p : PyV), p ∈ normalizePartsAux gen i l →
      isMessagePart p = true := by
  intro l
  induction l with
  | nil => intro i p hp; simp [normalizePartsAux] at hp
  | cons q rest ih =>
    intro i p hp
    rcases List.mem_cons.mp hp with hp | hp
    · rw [hp]; exact normalizeOne_isPart q (gen i)
    · exact ih (i + 1) p hp

theorem alookup_map_self (f : String → PyV) :
    ∀ (ids : List String) (tid : String), tid ∈ ids →
      alookup tid (ids.map (fun x => (x, f x))) = some (f tid) := by
  intro ids
  induction ids with
  | nil => intro tid hmem; cases hmem
  | cons a rest ih =>
    intro tid hmem
    by_cases ha : a = tid
    · subst ha; simp [alookup]
    · have hr : tid ∈ rest := by
        rcases List.mem_cons.mp hmem with hc | hc
        · exact absurd hc.symm ha
        · exact hc
      simp [alookup, ha, ih tid hr]

theorem normalizePartsAux_getElem (gen : Nat → String) :
    ∀ (l : List PyV) (i j : Nat),
      (normalizePartsAux gen i l)[j]?
        = (l[j]?).map (fun p => normalizeOne p (gen (i + j))) := by
  intro l
  induction l with
  | nil => intro i j; simp [normalizePartsAux]
  | cons p rest ih =>
    intro i j
    cases j with
    | zero => simp [normalizePartsAux]
    | succ j2 =>
      have harith : i + 1 + j2 = i + (j2 + 1) := by omega
      simp [normalizePartsAux, ih (i + 1) j2, harith]

theorem route_agents_length (intent : String) :
    1 ≤ (route_agents intent).length := by
  simp only [route_agents, alookup]
  repeat' split
  all_goals simp

theorem alookup_create_end_self (h : MCPHost) (freshSid ag now : String) :
    alookup freshSid (end_session (create_session h freshSid ag now) freshSid).2.sessions
      = some ({ agent_id := ag, created_at := now, active := false, context := [] }) := by
  have h1s : alookup freshSid (create_session h freshSid ag now).sessions
      = some ({ agent_id := ag, created_at := now, active := true, context := [] }) := by
    simp [create_session, alookup_setEntry_self]
  rw [end_session_mem _ _ _ h1s]
  simp [alookup_setEntry_self]

theorem alookup_create_end_other (h : MCPHost) (freshSid ag now sid2 : String)
    (hne : sid2 ≠ freshSid) :
    alookup sid2 (end_session (create_session h freshSid ag now) freshSid).2.sessions
      = alookup sid2 h.sessions := by
  have h1s : alookup freshSid (create_session h freshSid ag now).sessions
      = some ({ agent_id := ag, created_at := now, active := true, context := [] }) := by
    simp [create_session, alookup_setEntry_self]
  rw [end_session_mem _ _ _ h1s]
  have hne2 : freshSid ≠ sid2 := fun hc => hne hc.symm
  simp only [create_session]
  rw [alookup_setEntry_ne sid2 freshSid _ hne2]
  rw [alookup_setEntry_ne sid2 freshSid _ hne2]

/-- Claim C1: `execute_tool` validates in exactly this order and returns the
corresponding structured error without raising — unknown session gives
"Invalid session ID"; an inactive session gives "Session not active"; an
unregistered tool gives "Tool not found"; otherwise the tool's `execute` runs
and a normal return is passed through while a raised exception is caught and
converted to an error result with the exception text.  Totality of the Lean
function models that `execute_tool` itself never raises. -/
theorem execute_tool_validation_order (h : MCPHost) (sid tid : String)
    (p : Option (List (String × PyV))) :
    (alookup sid h.sessions = none →
      execute_tool h sid tid p = errRes "Invalid session ID") ∧
    (∀ s, alookup sid h.sessions = some s → s.active = false →
      execute_tool h sid tid p = errRes "Session not active") ∧
    (∀ s, alookup sid h.sessions = some s → s.active = true →
      alookup tid h.tools = none →
      execute_tool h sid tid p = errRes "Tool not found") ∧
    (∀ s t r, alookup sid h.sessions = some s → s.active = true →
      alookup tid h.tools = some t → t.execute (p.getD []) = Except.ok r →
      execute_tool h sid tid p = r) ∧
    (∀ s t e, alookup sid h.sessions = some s → s.active = true →
      alookup tid h.tools = some t → t.execute (p.getD []) = Except.error e →
      execute_tool h sid tid p = errRes e) :=
  ⟨exec_no_session h sid tid p,
   fun s hs ha => exec_inactive h sid tid p s hs ha,
   fun s hs ha ht => exec_no_tool h sid tid p s hs ha ht,
   fun s t r hs ha ht hr => exec_tool_ok h sid tid p s t r hs ha ht hr,
   fun s t e hs ha ht hr => exec_tool_raises h sid tid p s t e hs ha ht hr⟩

/-- Witness for C1: on a concrete host with an active session and a tool that
raises "boom", `execute_tool` returns the converted error result. -/
theorem execute_tool_validation_order_witness :
    execute_tool sampleHost "s1" "t1" none = errRes "boom" :=
  (execute_tool_validation_order sampleHost "s1" "t1" none).2.2.2.2
    sampleSession boomTool "boom" rfl rfl rfl rfl

/-- Claim C2: session lifecycle invariant — `create_session` stores the new
row with `active = true`; `execute_tool` is a pure read that never changes
host state; no operation removes a session from the table; once a session is
inactive it stays inactive under any sequence of host operations (with fresh
uuids for creates); and after `end_session` every later `execute_tool` on that
session id returns the "Session not active" error. -/
theorem session_lifecycle :
    (∀ (h : MCPHost) (sid ag now : String),
      alookup sid (create_session h sid ag now).sessions
        = some ({ agent_id := ag, created_at := now, active := true, context := [] })) ∧
    (∀ (h : MCPHost) (sid tid : String) (p : Option (List (String × PyV))),
      applyOp h (.execT sid tid p) = h) ∧
    (∀ (h : MCPHost) (op : HostOp) (sid : String),
      (alookup sid h.sessions).isSome = true →
      (alookup sid (applyOp h op).sessions).isSome = true) ∧
    (∀ (h : MCPHost) (ops : List HostOp) (sid : String) (s : SessionData),
      FreshOps h ops → alookup sid h.sessions = some s → s.active = false →
      ∃ s2, alookup sid (applyOps h ops).sessions = some s2 ∧ s2.active = false) ∧
    (∀ (h : MCPHost) (sid : String) (s : SessionData) (ops : List HostOp)
      (tid : String) (p : Option (List (String × PyV))),
      alookup sid h.sessions = some s →
      FreshOps (end_session h sid).2 ops →
      execute_tool (applyOps (end_session h sid).2 ops) sid tid p
        = errRes "Session not active") := by
  refine ⟨?_, ?_, ?_, ?_, ?_⟩
  · intro h sid ag now
    simp [create_session, alookup_setEntry_self]
  · intro h sid tid p
    rfl
  · exact applyOp_mem
  · exact fun h ops sid s hfr hs ha => applyOps_inactive_stays ops h sid s hfr hs ha
  · intro h sid s ops tid p hs hfr
    have h2 : alookup sid (end_session h sid).2.sessions = some ({ s with active := false }) := by
      rw [end_session_mem h sid s hs]
      simp [alookup_setEntry_self]
    obtain ⟨s2, hs2, ha2⟩ :=
      applyOps_inactive_stays ops (end_session h sid).2 sid ({ s with active := false }) hfr h2 rfl
    exact exec_inactive _ sid tid p s2 hs2 ha2

/-- Witness for C2: ending the concrete session and then calling
`execute_tool` on it (empty further operation sequence) yields the
"Session not active" error. -/
theorem session_lifecycle_witness :
    execute_tool (applyOps (end_session sampleHost "s1").2 []) "s1" "t1" none
      = errRes "Session not active" :=
  session_lifecycle.2.2.2.2 sampleHost "s1" sampleSession [] "t1" none rfl True.intro

/-- Claim C8: `end_session` returns false and leaves state unchanged on an
unknown id; on a known id it returns true with the row's `active` set to
false, and it is idempotent — the second call also returns true and leaves the
state exactly as after the first call. -/
theorem end_session_spec (h : MCPHost) (sid : String) :
    (alookup sid h.sessions = none → end_session h sid = (false, h)) ∧
    (∀ s, alookup sid h.sessions = some s →
      (end_session h sid).1 = true ∧
      alookup sid (end_session h sid).2.sessions = some ({ s with active := false }) ∧
      (end_session (end_session h sid).2 sid).1 = true ∧
      (end_session (end_session h sid).2 sid).2 = (end_session h sid).2) := by
  constructor
  · intro hs
    simp [end_session, hs]
  · intro s hs
    have h1 := end_session_mem h sid s hs
    have h2s : alookup sid (end_session h sid).2.sessions = some ({ s with active := false }) := by
      rw [h1]
      simp [alookup_setEntry_self]
    have h2 := end_session_mem (end_session h sid).2 sid ({ s with active := false }) h2s
    refine ⟨by rw [h1], h2s, by rw [h2], ?_⟩
    rw [h2, h1]
    simp [setEntry_setEntry]

/-- Witness for C8: ending the concrete session twice returns true both times
and the second call leaves the state of the first. -/
theorem end_session_spec_witness :
    (end_session sampleHost "s1").1 = true ∧
    (end_session (end_session sampleHost "s1").2 "s1").2 = (end_session sampleHost "s1").2 := by
  have h := (end_session_spec sampleHost "s1").2 sampleSession rfl
  exact ⟨h.1, h.2.2.2⟩

/-- Claim C5: `detect_intent` is the priority-ordered first-match classifier
over the keyword groups for preprocess, summarize, risk, calendar, jira and
notify, in that order, with "default" when no keyword matches. -/
theorem detect_intent_first_match (text : Option String) :
    detect_intent text = firstMatchIntent text := by
  unfold detect_intent firstMatchIntent intentGroups
  simp only [List.find?, List.any_cons, List.any_nil, Bool.or_false, Bool.or_assoc]
  set t := lowerChars (text.getD "") with ht
  by_cases c1 : (strIn "preprocess" t || (strIn "pre-processing" t || (strIn "process" t
      || (strIn "transcript" t || (strIn "transcripts" t || strIn "clean" t))))) = true
  · simp [c1]
  · rw [Bool.not_eq_true] at c1
    by_cases c2 : (strIn "summar" t || strIn "summary" t) = true
    · simp [c1, c2]
    · rw [Bool.not_eq_true] at c2
      by_cases c3 : (strIn "risk" t || (strIn "detect risk" t || strIn "risks" t)) = true
      · simp [c1, c2, c3]
      · rw [Bool.not_eq_true] at c3
        by_cases c4 : (strIn "calendar" t || (strIn "events" t || strIn "fetch" t)) = true
        · simp [c1, c2, c3, c4]
        · rw [Bool.not_eq_true] at c4
          by_cases c5 : (strIn "jira" t || (strIn "ticket" t || strIn "issue" t)) = true
          · simp [c1, c2, c3, c4, c5]
          · rw [Bool.not_eq_true] at c5
            by_cases c6 : (strIn "notify" t || strIn "email" t) = true
            · simp [c1, c2, c3, c4, c5, c6]
            · rw [Bool.not_eq_true] at c6
              simp [c1, c2, c3, c4, c5, c6]

/-- Counterexample to C6 as stated: on the first of the spec's two inputs the
classifier does not return "summarize" — the preprocessing keyword
"transcript" matches first. -/
theorem detect_intent_example_not_summarize :
    ¬ detect_intent (some "please summarize the transcript and fetch my calendar")
        = "summarize" := by decide

/-- Claim C6 (amended): on the spec's two concrete inputs `detect_intent`
returns "preprocess" (the preprocessing keyword "transcript" matches before
the summarize group) and "calendar" respectively. -/
theorem detect_intent_examples :
    detect_intent (some "please summarize the transcript and fetch my calendar")
        = "preprocess" ∧
    detect_intent (some "fetch my calendar events for next week") = "calendar" :=
  ⟨by decide, by decide⟩

/-- Claim C9: construction-time normalization is idempotent — on a part list
whose entries are all typed `MessagePart`s it is the identity, hence
re-normalizing the output of normalization changes nothing. -/
theorem normalization_idempotent :
    (∀ (gen : Nat → String) (l : List PyV),
      (∀ p ∈ l, isMessagePart p = true) → normalizeParts gen l = l) ∧
    (∀ (gen gen2 : Nat → String) (l : List PyV),
      normalizeParts gen2 (normalizeParts gen l) = normalizeParts gen l) := by
  constructor
  · intro gen l hall
    exact normalizePartsAux_of_parts gen l 0 hall
  · intro gen gen2 l
    exact normalizePartsAux_of_parts gen2 (normalizeParts gen l) 0
      (fun p hp => normalizePartsAux_all_parts gen l 0 p hp)

/-- Witness for C9: re-normalizing a one-element list that is already a typed
part returns it unchanged. -/
theorem normalization_idempotent_witness :
    normalizeParts (fun _ => "u1") [.vPart (.vStr "p1") .TEXT (.vStr "hello")]
      = [.vPart (.vStr "p1") .TEXT (.vStr "hello")] :=
  normalization_idempotent.1 (fun _ => "u1")
    [.vPart (.vStr "p1") .TEXT (.vStr "hello")] (by decide)

/-- Claim C10 (implicit): `detect_intent` is total on absent input — `None`
and the empty string both classify as "default" without raising — and
`route_agents` maps every intent tag to a non-empty tool id list, so
`orchestrate` always dispatches at least one tool and its results map is
never empty. -/
theorem orchestrate_total :
    detect_intent none = "default" ∧
    detect_intent (some "") = "default" ∧
    (∀ intent, 1 ≤ (route_agents intent).length) ∧
    (∀ (h : MCPHost) (msg : Option String) (params : Option (List (String × PyV)))
      (session_id : Option String) (freshSid now : String),
      1 ≤ (orchestrate h msg params session_id freshSid now).1.results.length) := by
  refine ⟨by decide, by decide, route_agents_length, ?_⟩
  intro h msg params session_id freshSid now
  show 1 ≤ ((route_agents (detect_intent msg)).map _).length
  rw [List.length_map]
  exact route_agents_length _

/-- Claim C3: `orchestrate` invokes `execute_tool` once per routed tool id, in
list order, and returns the intent together with a results map keyed by tool
id in that same insertion order; a tool whose `execute` raises has the
converted error result recorded under its tool id while the remaining tool
ids are still executed (the whole batch is the map over all routed ids), and
`orchestrate` itself never raises (it is total). -/
theorem orchestrate_batch (h : MCPHost) (msg : Option String)
    (params : Option (List (String × PyV))) (session_id : Option String)
    (freshSid now : String) :
    (orchestrate h msg params session_id freshSid now).1.intent = detect_intent msg ∧
    (orchestrate h msg params session_id freshSid now).1.results
      = (route_agents (detect_intent msg)).map (fun tid =>
          (tid, execute_tool (orchSessionSetup h session_id freshSid now).2.2
            (orchSessionSetup h session_id freshSid now).1 tid (some (params.getD [])))) ∧
    (∀ tid s t e, tid ∈ route_agents (detect_intent msg) →
      alookup (orchSessionSetup h session_id freshSid now).1
        (orchSessionSetup h session_id freshSid now).2.2.sessions = some s →
      s.active = true →
      alookup tid (orchSessionSetup h session_id freshSid now).2.2.tools = some t →
      t.execute (params.getD []) = Except.error e →
      alookup tid (orchestrate h msg params session_id freshSid now).1.results
        = some (errRes e)) := by
  refine ⟨rfl, rfl, ?_⟩
  intro tid s t e hmem hs ha ht hr
  have hexec : execute_tool (orchSessionSetup h session_id freshSid now).2.2
      (orchSessionSetup h session_id freshSid now).1 tid (some (params.getD []))
        = errRes e :=
    exec_tool_raises _ _ _ _ s t e hs ha ht hr
  have hal := alookup_map_self
    (fun x => execute_tool (orchSessionSetup h session_id freshSid now).2.2
      (orchSessionSetup h session_id freshSid now).1 x (some (params.getD [])))
    (route_agents (detect_intent msg)) tid hmem
  calc alookup tid (orchestrate h msg params session_id freshSid now).1.results
      = some (execute_tool (orchSessionSetup h session_id freshSid now).2.2
          (orchSessionSetup h session_id freshSid now).1 tid (some (params.getD []))) := hal
    _ = some (errRes e) := by rw [hexec]

/-- Witness for C3: with the raising notification tool registered and a
caller-supplied active session, the "notify the team" orchestration records
the converted error under the "notification" tool id. -/
theorem orchestrate_batch_witness :
    alookup "notification"
      (orchestrate notifHost (some "notify the team") none (some "s1") "f1" "n1").1.results
      = some (errRes "boom") :=
  (orchestrate_batch notifHost (some "notify the team") none (some "s1") "f1" "n1").2.2
    "notification" sampleSession boomTool "boom" (by decide) rfl rfl rfl rfl

/-- Claim C4: `orchestrate` owns the session only when the caller supplies
none — with a caller-supplied session id the final host state is unchanged
(the session is reused and never ended); with none, it creates the fresh
session and ends exactly that one in the guaranteed-cleanup step: afterwards
the fresh session exists with `active = false`, every other session id looks
up exactly as before, and the tool registry is untouched. -/
theorem orchestrate_session_ownership (h : MCPHost) (msg : Option String)
    (params : Option (List (String × PyV))) (freshSid now sid : String) :
    (orchestrate h msg params (some sid) freshSid now).2 = h ∧
    (alookup freshSid h.sessions = none →
      alookup freshSid (orchestrate h msg params none freshSid now).2.sessions
        = some ({ agent_id := "orchestrator", created_at := now,
                  active := false, context := [] }) ∧
      (∀ sid2, sid2 ≠ freshSid →
        alookup sid2 (orchestrate h msg params none freshSid now).2.sessions
          = alookup sid2 h.sessions) ∧
      (orchestrate h msg params none freshSid now).2.tools = h.tools) := by
  constructor
  · rfl
  · intro hfresh
    have hfinal : (orchestrate h msg params none freshSid now).2
        = (end_session (create_session h freshSid "orchestrator" now) freshSid).2 := rfl
    have h1s : alookup freshSid (create_session h freshSid "orchestrator" now).sessions
        = some ({ agent_id := "orchestrator", created_at := now,
                  active := true, context := [] }) := by
      simp [create_session, alookup_setEntry_self]
    refine ⟨?_, ?_, ?_⟩
    · rw [hfinal]
      exact alookup_create_end_self h freshSid "orchestrator" now
    · intro sid2 hne
      rw [hfinal]
      exact alookup_create_end_other h freshSid "orchestrator" now sid2 hne
    · rw [hfinal, end_session_mem _ _ _ h1s]
      rfl

/-- Witness for C4: orchestrating with no caller session on the concrete host
leaves the fresh session "f1" present and ended. -/
theorem orchestrate_session_ownership_witness :
    alookup "f1" (orchestrate sampleHost none none none "f1" "n1").2.sessions
      = some ({ agent_id := "orchestrator", created_at := "n1",
                active := false, context := [] }) :=
  ((orchestrate_session_ownership sampleHost none none "f1" "n1" "s1").2 rfl).1

/-- Claim C7: envelope construction normalizes every entry into a well-formed
`MessagePart` while preserving order — a typed part is kept with its original
kind; a dict descriptor's kind is the recognized tag named by its
content_type/type entry (a `PartType` instance is kept, a recognized value
string converts); an unrecognized or missing tag defaults to TEXT; a bare
non-dict value becomes a TEXT part holding its string form; element `j` of
the output is the normalization of element `j` of the input; and the spec's
concrete three-element input yields kinds TASK, TEXT and the third part's
original kind, in that order. -/
theorem envelope_normalization (gen : Nat → String) :
    (∀ pid ct c freshId, normalizeOne (.vPart pid ct c) freshId = .vPart pid ct c) ∧
    (∀ d freshId t, dictCtypeVal d = .vPType t →
      partKind (normalizeOne (.vDict d) freshId) = some t) ∧
    (∀ d freshId s t, dictCtypeVal d = .vStr s → PartType.fromValue s = some t →
      partKind (normalizeOne (.vDict d) freshId) = some t) ∧
    (∀ d freshId s, dictCtypeVal d = .vStr s → PartType.fromValue s = none →
      partKind (normalizeOne (.vDict d) freshId) = some PartType.TEXT) ∧
    (∀ d freshId, dictCtypeVal d = .vNone →
      partKind (normalizeOne (.vDict d) freshId) = some PartType.TEXT) ∧
    (∀ s freshId, normalizeOne (.vStr s) freshId
        = .vPart (.vStr freshId) PartType.TEXT (.vStr s)) ∧
    (∀ (l : List PyV) (j : Nat),
      (normalizeParts gen l)[j]? = (l[j]?).map (fun p => normalizeOne p (gen j))) ∧
    (∀ pid ct c,
      (normalizeParts gen
        [.vDict [("type", .vStr "task"), ("content", .vDict [("x", .vInt 1)])],
         .vStr "plain text", .vPart pid ct c]).map partKind
        = [some PartType.TASK, some PartType.TEXT, some ct]) := by
  refine ⟨fun pid ct c freshId => rfl, ?_, ?_, ?_, ?_, fun s freshId => rfl, ?_, ?_⟩
  · intro d freshId t hct
    simp [normalizeOne, partKind, coercePartType, hct]
  · intro d freshId s t hct hft
    simp [normalizeOne, partKind, coercePartType, hct, hft]
  · intro d freshId s hct hft
    simp [normalizeOne, partKind, coercePartType, hct, hft]
  · intro d freshId hct
    simp [normalizeOne, partKind, coercePartType, hct]
  · intro l j
    have := normalizePartsAux_getElem gen l 0 j
    simpa using this
  · intro pid ct c
    simp [normalizeParts, normalizePartsAux, normalizeOne, dictCtypeVal, dictGet,
      alookup, pyTruthy, pyStr, coercePartType, PartType.fromValue, partKind]

/-- Witness for C7: a dict descriptor tagged with the recognized value "risk"
normalizes to a part of kind RISK. -/
theorem envelope_normalization_witness :
    partKind (normalizeOne (.vDict [("content_type", .vStr "risk")]) "u1")
      = some PartType.RISK :=
  (envelope_normalization (fun _ => "u1")).2.2.1
    [("content_type", .vStr "risk")] "u1" "risk" PartType.RISK rfl rfl
